import Mathlib

/-!
Shallow embedding of the AoC 2023 day 16 beam-propagation program
(`src/main.rs`): a rectangular field of mirrors and splitters, a
successor function for beams, and a fuel-bounded propagation loop
counting energized cells.  Rust panics (index out of bounds, `unwrap`,
explicit `panic!`) are modelled as `Option`/`Except` failures.
-/

/-- `MirrorType` from the source: the five cell kinds. -/
inductive MirrorType where
  | Empty
  | PositiveMirror
  | NegativeMirror
  | VerticalSplitter
  | HorizontalSplitter
deriving DecidableEq, Repr

/-- `Direction` from the source. -/
inductive Direction where
  | North
  | South
  | East
  | West
deriving DecidableEq, Repr

/-- `Beam` from the source: a position `(column, row)` and a direction. -/
structure Beam where
  position : Nat × Nat
  direction : Direction
deriving DecidableEq, Repr

/-- `MirrorField` from the source: a row-major matrix of cells. -/
structure MirrorField where
  matrix : List (List MirrorType)
deriving DecidableEq, Repr

namespace MirrorField

/-- `self.matrix.len()` — the number of rows. -/
def height (m : MirrorField) : Nat := m.matrix.length

/-- `self.matrix[0].len()` — the number of columns, as the source reads it
off the first row. -/
def width (m : MirrorField) : Nat := (m.matrix.headD []).length

/-- The body of the `match` in `get_next_positions`, once the cell at the
beam's position has been looked up.  Each arm mirrors one arm of the Rust
`match (beam.direction, self.matrix[y][x])`, with the same bounds guards
and the same push order. -/
def next_from (m : MirrorField) (x y : Nat) (cell : MirrorType)
    (dir : Direction) : List Beam :=
  match dir, cell with
  -- go north
  | .East, .PositiveMirror
  | .West, .NegativeMirror
  | .North, .VerticalSplitter
  | .North, .Empty =>
      if y > 0 then [⟨(x, y - 1), .North⟩] else []
  -- go south
  | .East, .NegativeMirror
  | .West, .PositiveMirror
  | .South, .VerticalSplitter
  | .South, .Empty =>
      if y < m.height - 1 then [⟨(x, y + 1), .South⟩] else []
  -- go west
  | .South, .PositiveMirror
  | .North, .NegativeMirror
  | .West, .HorizontalSplitter
  | .West, .Empty =>
      if x > 0 then [⟨(x - 1, y), .West⟩] else []
  -- go east
  | .South, .NegativeMirror
  | .North, .PositiveMirror
  | .East, .HorizontalSplitter
  | .East, .Empty =>
      if x < m.width - 1 then [⟨(x + 1, y), .East⟩] else []
  -- go west and east
  | .North, .HorizontalSplitter
  | .South, .HorizontalSplitter =>
      (if x > 0 then [⟨(x - 1, y), .West⟩] else []) ++
      (if x < m.width - 1 then [⟨(x + 1, y), .East⟩] else [])
  -- go north and south
  | .East, .VerticalSplitter
  | .West, .VerticalSplitter =>
      (if y > 0 then [⟨(x, y - 1), .North⟩] else []) ++
      (if y < m.height - 1 then [⟨(x, y + 1), .South⟩] else [])

/-- `get_next_positions` from the source.  The Rust code indexes
`self.matrix[y][x]`, which panics when out of bounds; the panic is
modelled as `none`. -/
def get_next_positions (m : MirrorField) (beam : Beam) : Option (List Beam) :=
  match m.matrix.get? beam.position.2 with
  | none => none
  | some row =>
      match row.get? beam.position.1 with
      | none => none
      | some cell => some (m.next_from beam.position.1 beam.position.2 cell beam.direction)

end MirrorField

/-- A grid is well formed when it is non-empty and rectangular: at least
one row, at least one column, and every row of the same length. -/
def MirrorField.WellFormed (m : MirrorField) : Prop :=
  0 < m.height ∧ 0 < m.width ∧ ∀ row ∈ m.matrix, row.length = m.width

instance (m : MirrorField) : Decidable m.WellFormed := by
  unfold MirrorField.WellFormed; infer_instance

/-- A beam is in bounds when its column is below the width and its row is
below the height. -/
def Beam.inBounds (m : MirrorField) (b : Beam) : Prop :=
  b.position.1 < m.width ∧ b.position.2 < m.height

instance (m : MirrorField) (b : Beam) : Decidable (b.inBounds m) := by
  unfold Beam.inBounds; infer_instance

/-- Spec-side rule table, written from the spec's words: the outgoing
direction(s) for an incoming direction meeting a cell kind. -/
def specOutgoing : Direction → MirrorType → List Direction
  | .East, .PositiveMirror => [.North]
  | .West, .PositiveMirror => [.South]
  | .North, .PositiveMirror => [.East]
  | .South, .PositiveMirror => [.West]
  | .East, .NegativeMirror => [.South]
  | .West, .NegativeMirror => [.North]
  | .North, .NegativeMirror => [.West]
  | .South, .NegativeMirror => [.East]
  | .North, .VerticalSplitter => [.North]
  | .South, .VerticalSplitter => [.South]
  | .East, .VerticalSplitter => [.North, .South]
  | .West, .VerticalSplitter => [.North, .South]
  | .East, .HorizontalSplitter => [.East]
  | .West, .HorizontalSplitter => [.West]
  | .North, .HorizontalSplitter => [.West, .East]
  | .South, .HorizontalSplitter => [.West, .East]
  | d, .Empty => [d]

/-- Spec-side advance, written from the spec's words: an outgoing
direction becomes a beam one cell over in that direction, and is silently
dropped when the move would leave the grid (coordinate going negative, or
reaching the width or height). -/
def specAdvance (m : MirrorField) (pos : Nat × Nat) : Direction → Option Beam
  | .North => if 0 < pos.2 then some ⟨(pos.1, pos.2 - 1), .North⟩ else none
  | .South => if pos.2 + 1 < m.height then some ⟨(pos.1, pos.2 + 1), .South⟩ else none
  | .West => if 0 < pos.1 then some ⟨(pos.1 - 1, pos.2), .West⟩ else none
  | .East => if pos.1 + 1 < m.width then some ⟨(pos.1 + 1, pos.2), .East⟩ else none

/-- `MAX_STEPS` from the source. -/
def MAX_STEPS : Nat := 1000

/-- The state threaded through the `while` loop of `get_power`:
`powered` is the set of energized positions, `current` the active
frontier (a list, as in the Rust `Vec`), `previous` the set of beams
already seen. -/
structure PowerState where
  powered : Finset (Nat × Nat)
  current : List Beam
  previous : Finset Beam
deriving DecidableEq

namespace MirrorField

/-- The `flat_map(|b| self.get_next_positions(b))` of the loop body,
sequenced left to right; a panic inside any call is modelled as `none`. -/
def nextsAll (m : MirrorField) : List Beam → Option (List Beam)
  | [] => some []
  | b :: bs =>
      match m.get_next_positions b with
      | none => none
      | some l =>
          match m.nextsAll bs with
          | none => none
          | some rest => some (l ++ rest)

/-- One iteration of the `while` loop of `get_power`: extend `powered`
with the frontier's positions, insert the frontier into `previous`, then
replace the frontier by the successors not already in `previous`. -/
def power_step (m : MirrorField) (s : PowerState) : Option PowerState :=
  let powered := s.powered ∪ (s.current.map Beam.position).toFinset
  let previous := s.previous ∪ s.current.toFinset
  match m.nextsAll s.current with
  | none => none
  | some nexts =>
      some ⟨powered, nexts.filter (fun np => decide (np ∉ previous)), previous⟩

/-- The `while steps < MAX_STEPS && !current_beams.is_empty()` loop,
with the remaining step budget as fuel. -/
def power_loop (m : MirrorField) : Nat → PowerState → Option PowerState
  | 0, s => some s
  | n + 1, s =>
      if s.current.isEmpty then some s
      else
        match m.power_step s with
        | none => none
        | some s2 => m.power_loop n s2

/-- Exactly `n` iterations of the loop body, with no emptiness test:
used to relate `power_loop` to the iteration count it actually performs. -/
def power_steps (m : MirrorField) : Nat → PowerState → Option PowerState
  | 0, s => some s
  | n + 1, s =>
      match m.power_step s with
      | none => none
      | some s2 => m.power_steps n s2

/-- The initial loop state for a slice of starting beams: empty powered
set, the given frontier, empty seen set. -/
def initState (beams : List Beam) : PowerState := ⟨∅, beams, ∅⟩

/-- `get_power` from the source: run the loop and return the number of
distinct powered positions.  A panic during propagation is modelled as
`none`. -/
def get_power (m : MirrorField) (beams : List Beam) : Option Nat :=
  (m.power_loop MAX_STEPS (initState beams)).map (fun s => s.powered.card)

/-- Whether `get_power` prints `WARN: unfinished beams!`: the frontier is
still non-empty when the loop exits. -/
def get_power_warns (m : MirrorField) (beams : List Beam) : Option Bool :=
  (m.power_loop MAX_STEPS (initState beams)).map (fun s => !s.current.isEmpty)

end MirrorField

/-- The error kinds of grid construction named by the spec.  The source
reaches only `InvalidCellKind` (as a `panic!`); no row-shape check
exists in the code. -/
inductive GridError where
  | InvalidCellKind
  | MalformedGrid
deriving DecidableEq, Repr

/-- The character-to-cell mapping of `MirrorField::parse`; `none` for the
`panic!("Invalid character!")` arm. -/
def charToCell : Char → Option MirrorType
  | '.' => some .Empty
  | '/' => some .PositiveMirror
  | '\\' => some .NegativeMirror
  | '|' => some .VerticalSplitter
  | '-' => some .HorizontalSplitter
  | _ => none

/-- One line of `parse`: map each character, failing on the first
invalid one (the Rust panic, modelled as a typed error). -/
def parseRow : List Char → Except GridError (List MirrorType)
  | [] => .ok []
  | c :: cs =>
      match charToCell c with
      | none => .error .InvalidCellKind
      | some t =>
          match parseRow cs with
          | .error e => .error e
          | .ok ts => .ok (t :: ts)

/-- `MirrorField::parse` from the source: map every line, with no check
of row lengths or row count.  A line is modelled as its character list. -/
def MirrorField.parse (lines : List (List Char)) : Except GridError MirrorField :=
  match go lines with
  | .error e => .error e
  | .ok matrix => .ok ⟨matrix⟩
where
  go : List (List Char) → Except GridError (List (List MirrorType))
    | [] => .ok []
    | line :: rest =>
        match parseRow line with
        | .error e => .error e
        | .ok row =>
            match go rest with
            | .error e => .error e
            | .ok rows => .ok (row :: rows)

/-- The cell-to-character mapping of `MirrorField::to_str`. -/
def cellToChar : MirrorType → Char
  | .Empty => '.'
  | .HorizontalSplitter => '-'
  | .VerticalSplitter => '|'
  | .PositiveMirror => '/'
  | .NegativeMirror => '\\'

/-- `MirrorField::to_str` from the source: render each row and fold the
rows together with a newline between them (`reduce` + `unwrap`); the
`unwrap` panic on an empty matrix is modelled as `none`.  Strings are
modelled as character lists. -/
def MirrorField.to_str (m : MirrorField) : Option (List Char) :=
  match m.matrix.map (fun row => row.map cellToChar) with
  | [] => none
  | r :: rs => some (rs.foldl (fun a b => a ++ '\n' :: b) r)

/-- Spec-side join, written from the spec's words: the lines joined by
newline characters. -/
def specJoinLines : List (List Char) → List Char
  | [] => []
  | [l] => l
  | l :: ls => l ++ '\n' :: specJoinLines ls

/-- The starting beams of `main`'s west-edge scan: entering East at
`(0, y)` for `y` in `0..matrix.len()`. -/
def MirrorField.westScanStarts (m : MirrorField) : List Beam :=
  (List.range m.matrix.length).map (fun y => ⟨(0, y), .East⟩)

/-- The starting beams of `main`'s east-edge scan: entering West at
`(matrix[0].len() - 1, y)` for `y` in `0..matrix.len()`. -/
def MirrorField.eastScanStarts (m : MirrorField) : List Beam :=
  (List.range m.matrix.length).map (fun y => ⟨((m.matrix.headD []).length - 1, y), .West⟩)

/-- The starting beams of `main`'s north-edge scan: entering South at
`(x, 0)` for `x` in `0..matrix[0].len()`. -/
def MirrorField.northScanStarts (m : MirrorField) : List Beam :=
  (List.range (m.matrix.headD []).length).map (fun x => ⟨(x, 0), .South⟩)

/-- The starting beams of `main`'s south-edge scan: entering North at
`(x, matrix.len() - 1)` for `x` in `0..matrix.len()` — the row count,
exactly as the source iterates. -/
def MirrorField.southScanStarts (m : MirrorField) : List Beam :=
  (List.range m.matrix.length).map (fun x => ⟨(x, m.matrix.length - 1), .North⟩)

/-- The match body of `get_next_positions` computes exactly the spec's
rule table followed by the spec's advance-or-drop step. -/
theorem MirrorField.next_from_spec (m : MirrorField) (x y : Nat)
    (cell : MirrorType) (dir : Direction) :
    m.next_from x y cell dir
      = (specOutgoing dir cell).filterMap (specAdvance m (x, y)) := by
  cases dir <;> cases cell <;>
    simp only [next_from, specOutgoing, specAdvance, List.filterMap_cons,
      List.filterMap_nil] <;>
    split_ifs <;> simp_all <;> omega

/-- The spec table emits at most two outgoing directions. -/
theorem specOutgoing_length_le (dir : Direction) (cell : MirrorType) :
    (specOutgoing dir cell).length ≤ 2 := by
  cases dir <;> cases cell <;> simp [specOutgoing]

/-- Advancing from an in-bounds position stays in bounds. -/
theorem specAdvance_inBounds (m : MirrorField) (x y : Nat) (d : Direction)
    (b : Beam) (hx : x < m.width) (hy : y < m.height)
    (h : specAdvance m (x, y) d = some b) : b.inBounds m := by
  cases d <;> simp only [specAdvance] at h <;> split_ifs at h <;>
    cases h <;> simp_all [Beam.inBounds] <;> omega

/-- Every beam produced by the match body is in bounds. -/
theorem MirrorField.next_from_inBounds (m : MirrorField) (x y : Nat)
    (cell : MirrorType) (dir : Direction) (hx : x < m.width) (hy : y < m.height) :
    ∀ b ∈ m.next_from x y cell dir, b.inBounds m := by
  intro b hb
  rw [m.next_from_spec, List.mem_filterMap] at hb
  obtain ⟨d, hd, hadv⟩ := hb
  exact specAdvance_inBounds m x y d b hx hy hadv

/-- For a well-formed grid and an in-bounds beam, both index lookups of
`get_next_positions` succeed and the result is the spec's rule table
followed by the spec's advance-or-drop step. -/
theorem MirrorField.gnp_spec (m : MirrorField) (hm : m.WellFormed) (b : Beam)
    (hb : b.inBounds m) :
    ∃ row cell,
      m.matrix.get? b.position.2 = some row ∧
      row.get? b.position.1 = some cell ∧
      m.get_next_positions b
        = some ((specOutgoing b.direction cell).filterMap (specAdvance m b.position)) := by
  obtain ⟨hx, hy⟩ := hb
  have hylen : b.position.2 < m.matrix.length := hy
  have hrow : m.matrix.get? b.position.2 = some (m.matrix.get ⟨b.position.2, hylen⟩) :=
    List.get?_eq_get hylen
  have hlen : (m.matrix.get ⟨b.position.2, hylen⟩).length = m.width :=
    hm.2.2 _ (m.matrix.get_mem _ _)
  have hxlen : b.position.1 < (m.matrix.get ⟨b.position.2, hylen⟩).length := by
    rw [hlen]; exact hx
  have hcell : (m.matrix.get ⟨b.position.2, hylen⟩).get? b.position.1
      = some ((m.matrix.get ⟨b.position.2, hylen⟩).get ⟨b.position.1, hxlen⟩) :=
    List.get?_eq_get hxlen
  refine ⟨_, _, hrow, hcell, ?_⟩
  simp only [get_next_positions, hrow, hcell, m.next_from_spec, Prod.mk.eta]

/-- Claim C1: for every well-formed grid and in-bounds beam,
`get_next_positions` implements the fixed propagation rule table
(`specOutgoing`): mirrors reflect, splitters pass through along their
axis and fan out broadside, empty cells pass beams through; each
outgoing direction is turned into a beam by advancing one cell in that
direction (dropped at the border), and the result has at most two
beams. -/
theorem claim_C1_rule_table (m : MirrorField) (b : Beam)
    (hm : m.WellFormed) (hb : b.inBounds m) :
    ∃ row cell l,
      m.matrix.get? b.position.2 = some row ∧
      row.get? b.position.1 = some cell ∧
      m.get_next_positions b = some l ∧
      l = (specOutgoing b.direction cell).filterMap (specAdvance m b.position) ∧
      l.length ≤ 2 := by
  obtain ⟨row, cell, h1, h2, h3⟩ := m.gnp_spec hm b hb
  exact ⟨row, cell, _, h1, h2, h3, rfl,
    le_trans (List.length_filterMap_le _ _) (specOutgoing_length_le _ _)⟩

/-- Witness for C1 on a concrete one-cell grid. -/
theorem claim_C1_rule_table_witness :
    (MirrorField.mk [[MirrorType.Empty]]).WellFormed ∧
    (Beam.mk (0, 0) Direction.East).inBounds (MirrorField.mk [[MirrorType.Empty]]) ∧
    ∃ row cell l,
      (MirrorField.mk [[MirrorType.Empty]]).matrix.get? 0 = some row ∧
      row.get? 0 = some cell ∧
      (MirrorField.mk [[MirrorType.Empty]]).get_next_positions (Beam.mk (0, 0) Direction.East)
        = some l ∧
      l = (specOutgoing Direction.East cell).filterMap
            (specAdvance (MirrorField.mk [[MirrorType.Empty]]) (0, 0)) ∧
      l.length ≤ 2 :=
  ⟨by decide, by decide,
    claim_C1_rule_table (MirrorField.mk [[MirrorType.Empty]])
      (Beam.mk (0, 0) Direction.East) (by decide) (by decide)⟩

/-- For a well-formed grid, an in-bounds beam has a successor list and
every successor is again in bounds. -/
theorem MirrorField.gnp_inBounds (m : MirrorField) (hm : m.WellFormed) (b : Beam)
    (hb : b.inBounds m) :
    ∃ l, m.get_next_positions b = some l ∧ ∀ b' ∈ l, b'.inBounds m := by
  obtain ⟨row, cell, _, _, h3⟩ := m.gnp_spec hm b hb
  refine ⟨_, h3, ?_⟩
  intro b' hb'
  rw [List.mem_filterMap] at hb'
  obtain ⟨d, _, hd⟩ := hb'
  exact specAdvance_inBounds m b.position.1 b.position.2 d b' hb.1 hb.2
    (by rwa [Prod.mk.eta])

/-- `nextsAll` succeeds on a frontier of in-bounds beams and produces
only in-bounds beams. -/
theorem MirrorField.nextsAll_ok (m : MirrorField) (hm : m.WellFormed) :
    ∀ bs : List Beam, (∀ b ∈ bs, b.inBounds m) →
      ∃ l, m.nextsAll bs = some l ∧ ∀ b' ∈ l, b'.inBounds m := by
  intro bs
  induction bs with
  | nil => exact fun _ => ⟨[], rfl, by simp⟩
  | cons b bs ih =>
      intro h
      obtain ⟨l1, h1, hb1⟩ := m.gnp_inBounds hm b (h b (by simp))
      obtain ⟨l2, h2, hb2⟩ := ih (fun x hx => h x (by simp [hx]))
      refine ⟨l1 ++ l2, by simp [nextsAll, h1, h2], ?_⟩
      intro b' hb'
      rcases List.mem_append.mp hb' with hmem | hmem
      exacts [hb1 _ hmem, hb2 _ hmem]

/-- One loop iteration on an in-bounds frontier succeeds; the new frontier
is in bounds and disjoint from the grown seen set, and the powered and
seen sets grow by exactly the frontier's positions and beams. -/
theorem MirrorField.power_step_ok (m : MirrorField) (hm : m.WellFormed)
    (s : PowerState) (hcur : ∀ b ∈ s.current, b.inBounds m) :
    ∃ s', m.power_step s = some s' ∧
      (∀ b ∈ s'.current, b.inBounds m) ∧
      s'.powered = s.powered ∪ (s.current.map Beam.position).toFinset ∧
      s'.previous = s.previous ∪ s.current.toFinset ∧
      (∀ b ∈ s'.current, b ∉ s'.previous) := by
  obtain ⟨l, hl, hbl⟩ := m.nextsAll_ok hm s.current hcur
  refine ⟨⟨s.powered ∪ (s.current.map Beam.position).toFinset,
      l.filter (fun np => decide (np ∉ s.previous ∪ s.current.toFinset)),
      s.previous ∪ s.current.toFinset⟩, ?_, ?_, rfl, rfl, ?_⟩
  · simp [power_step, hl]
  · intro b hb
    exact hbl b (List.mem_filter.mp hb).1
  · intro b hb
    have h2 := (List.mem_filter.mp hb).2
    simpa using h2

/-- The finite set of all in-bounds positions of a grid. -/
def MirrorField.boundedPositions (m : MirrorField) : Finset (Nat × Nat) :=
  Finset.range m.width ×ˢ Finset.range m.height

theorem MirrorField.mem_boundedPositions (m : MirrorField) (b : Beam)
    (hb : b.inBounds m) : b.position ∈ m.boundedPositions := by
  rw [boundedPositions, Finset.mem_product, Finset.mem_range, Finset.mem_range]
  exact hb

/-- The loop succeeds from any in-bounds frontier; the powered set only
grows, and it grows only by in-bounds positions. -/
theorem MirrorField.power_loop_ok (m : MirrorField) (hm : m.WellFormed) :
    ∀ (n : Nat) (s : PowerState), (∀ b ∈ s.current, b.inBounds m) →
      ∃ sF, m.power_loop n s = some sF ∧
        s.powered ⊆ sF.powered ∧
        sF.powered ⊆ s.powered ∪ m.boundedPositions := by
  intro n
  induction n with
  | zero => exact fun s _ => ⟨s, rfl, subset_rfl, Finset.subset_union_left⟩
  | succ n ih =>
      intro s h
      by_cases he : s.current.isEmpty
      · exact ⟨s, by simp [power_loop, he], subset_rfl, Finset.subset_union_left⟩
      · obtain ⟨s2, hstep, hcur2, hpow2, _, _⟩ := m.power_step_ok hm s h
        obtain ⟨sF, hloop, hsub1, hsub2⟩ := ih s2 hcur2
        have hpos : (s.current.map Beam.position).toFinset ⊆ m.boundedPositions := by
          intro p hp
          rw [List.mem_toFinset, List.mem_map] at hp
          obtain ⟨b, hb, rfl⟩ := hp
          exact m.mem_boundedPositions b (h b hb)
        refine ⟨sF, by simp [power_loop, he, hstep, hloop], ?_, ?_⟩
        · exact le_trans (hpow2 ▸ Finset.subset_union_left) hsub1
        · refine hsub2.trans ?_
          rw [hpow2]
          exact Finset.union_subset
            (Finset.union_subset Finset.subset_union_left
              (hpos.trans Finset.subset_union_right))
            Finset.subset_union_right

/-- Unfolding equation of `power_loop` for a successor fuel value. -/
theorem MirrorField.power_loop_succ (m : MirrorField) (n : Nat) (s : PowerState) :
    m.power_loop (n + 1) s =
      if s.current.isEmpty then some s
      else
        match m.power_step s with
        | none => none
        | some s2 => m.power_loop n s2 := rfl

/-- Claim C2: for a well-formed grid, an off-grid outgoing direction is
silently dropped rather than producing a beam or an error — every beam
returned by `get_next_positions` for an in-bounds beam is again in
bounds — and consequently the whole propagation loop started from
in-bounds beams never performs an out-of-bounds lookup (it returns a
result rather than the `none` that models the panic). -/
theorem claim_C2_no_oob (m : MirrorField) (hm : m.WellFormed) :
    (∀ b : Beam, b.inBounds m →
      ∃ l, m.get_next_positions b = some l ∧ ∀ b' ∈ l, b'.inBounds m) ∧
    (∀ beams : List Beam, (∀ b ∈ beams, b.inBounds m) →
      ∃ sF, m.power_loop MAX_STEPS (MirrorField.initState beams) = some sF) := by
  constructor
  · exact fun b hb => m.gnp_inBounds hm b hb
  · intro beams hbeams
    obtain ⟨sF, hsF, _, _⟩ := m.power_loop_ok hm MAX_STEPS (MirrorField.initState beams)
      (by simpa [MirrorField.initState] using hbeams)
    exact ⟨sF, hsF⟩

/-- Witness for C2 on a concrete one-cell grid. -/
theorem claim_C2_no_oob_witness :
    (MirrorField.mk [[MirrorType.Empty]]).WellFormed ∧
    ((∀ b : Beam, b.inBounds (MirrorField.mk [[MirrorType.Empty]]) →
      ∃ l, (MirrorField.mk [[MirrorType.Empty]]).get_next_positions b = some l ∧
        ∀ b' ∈ l, b'.inBounds (MirrorField.mk [[MirrorType.Empty]])) ∧
    (∀ beams : List Beam,
      (∀ b ∈ beams, b.inBounds (MirrorField.mk [[MirrorType.Empty]])) →
      ∃ sF, (MirrorField.mk [[MirrorType.Empty]]).power_loop MAX_STEPS
        (MirrorField.initState beams) = some sF)) :=
  ⟨by decide, claim_C2_no_oob (MirrorField.mk [[MirrorType.Empty]]) (by decide)⟩

/-- Claim C3: for a well-formed grid and a single in-bounds starting
beam, `get_power` succeeds and returns a count between `1` and
`width × height`. -/
theorem claim_C3_power_bounds (m : MirrorField) (b : Beam)
    (hm : m.WellFormed) (hb : b.inBounds m) :
    ∃ p, m.get_power [b] = some p ∧ 1 ≤ p ∧ p ≤ m.width * m.height := by
  have hcur : ∀ x ∈ (MirrorField.initState [b]).current, x.inBounds m := by
    intro x hx
    simp only [MirrorField.initState, List.mem_singleton] at hx
    subst hx; exact hb
  obtain ⟨s2, hstep, hcur2, hpow2, _, _⟩ := m.power_step_ok hm (MirrorField.initState [b]) hcur
  obtain ⟨sF, hloop, hsub1, hsub2⟩ := m.power_loop_ok hm 999 s2 hcur2
  have hne : (MirrorField.initState [b]).current.isEmpty = false := by
    simp [MirrorField.initState]
  have hloopFull : m.power_loop MAX_STEPS (MirrorField.initState [b]) = some sF := by
    have e1 : m.power_loop MAX_STEPS (MirrorField.initState [b])
        = m.power_loop 999 s2 := by
      rw [show MAX_STEPS = 999 + 1 from rfl, m.power_loop_succ, hne, hstep]
      simp
    rw [e1]
    exact hloop
  have hpowered : b.position ∈ s2.powered := by
    rw [hpow2]; simp [MirrorField.initState]
  refine ⟨sF.powered.card, ?_, ?_, ?_⟩
  · simp [MirrorField.get_power, hloopFull]
  · exact Nat.one_le_iff_ne_zero.mpr
      (Finset.card_ne_zero_of_mem (hsub1 hpowered))
  · have hBcard : m.boundedPositions.card = m.width * m.height := by
      simp [MirrorField.boundedPositions]
    have hsubB : sF.powered ⊆ m.boundedPositions := by
      refine hsub2.trans (Finset.union_subset ?_ subset_rfl)
      rw [hpow2]
      refine Finset.union_subset ?_ ?_
      · simp [MirrorField.initState]
      · intro p hp
        rw [List.mem_toFinset, List.mem_map] at hp
        obtain ⟨x, hx, rfl⟩ := hp
        simp only [MirrorField.initState, List.mem_singleton] at hx
        subst hx
        exact m.mem_boundedPositions x hb
    calc sF.powered.card ≤ m.boundedPositions.card := Finset.card_le_card hsubB
      _ = m.width * m.height := hBcard

/-- Witness for C3 on a concrete one-cell grid. -/
theorem claim_C3_power_bounds_witness :
    (MirrorField.mk [[MirrorType.Empty]]).WellFormed ∧
    (Beam.mk (0, 0) Direction.East).inBounds (MirrorField.mk [[MirrorType.Empty]]) ∧
    ∃ p, (MirrorField.mk [[MirrorType.Empty]]).get_power [Beam.mk (0, 0) Direction.East]
        = some p ∧ 1 ≤ p ∧
        p ≤ (MirrorField.mk [[MirrorType.Empty]]).width
              * (MirrorField.mk [[MirrorType.Empty]]).height :=
  ⟨by decide, by decide,
    claim_C3_power_bounds (MirrorField.mk [[MirrorType.Empty]])
      (Beam.mk (0, 0) Direction.East) (by decide) (by decide)⟩

/-- Unfolding equation of `power_steps` for a successor count. -/
theorem MirrorField.power_steps_succ (m : MirrorField) (n : Nat) (s : PowerState) :
    m.power_steps (n + 1) s =
      match m.power_step s with
      | none => none
      | some s2 => m.power_steps n s2 := rfl

/-- A successful run of `power_loop` performs some number `k ≤ n` of
iterations of the loop body, and stops either because the frontier is
empty or because the fuel ran out. -/
theorem MirrorField.power_loop_to_steps (m : MirrorField) :
    ∀ (n : Nat) (s sF : PowerState), m.power_loop n s = some sF →
      ∃ k, k ≤ n ∧ m.power_steps k s = some sF ∧ (sF.current = [] ∨ k = n) := by
  intro n
  induction n with
  | zero =>
      intro s sF h
      simp only [power_loop, Option.some.injEq] at h
      subst h
      exact ⟨0, le_refl 0, rfl, Or.inr rfl⟩
  | succ n ih =>
      intro s sF h
      rw [m.power_loop_succ] at h
      by_cases he : s.current.isEmpty
      · simp only [he, if_true] at h
        cases h
        exact ⟨0, Nat.zero_le _, rfl, Or.inl (List.isEmpty_iff.mp he)⟩
      · simp only [he, Bool.false_eq_true, if_false] at h
        cases hstep : m.power_step s with
        | none => rw [hstep] at h; cases h
        | some s2 =>
            rw [hstep] at h
            obtain ⟨k, hk, hsteps, hstop⟩ := ih s2 sF h
            refine ⟨k + 1, Nat.succ_le_succ hk, ?_, ?_⟩
            · rw [m.power_steps_succ, hstep]
              exact hsteps
            · rcases hstop with hstop | hstop
              exacts [Or.inl hstop, Or.inr (by rw [hstop])]

/-- Claim C4: the propagation loop of `get_power` always terminates —
it performs some number `k ≤ MAX_STEPS = 1000` of iterations, stopping
either with an empty frontier or at the step ceiling; the count
accumulated so far is returned in either case, and the non-fatal
warning is emitted exactly when the frontier at exit is non-empty. -/
theorem claim_C4_termination (m : MirrorField) (beams : List Beam)
    (hm : m.WellFormed) (hbeams : ∀ b ∈ beams, b.inBounds m) :
    ∃ k sF, k ≤ MAX_STEPS ∧
      m.power_steps k (MirrorField.initState beams) = some sF ∧
      (sF.current = [] ∨ k = MAX_STEPS) ∧
      m.get_power beams = some sF.powered.card ∧
      m.get_power_warns beams = some (!sF.current.isEmpty) := by
  obtain ⟨sF, hloop, _, _⟩ := m.power_loop_ok hm MAX_STEPS (MirrorField.initState beams)
    (by simpa [MirrorField.initState] using hbeams)
  obtain ⟨k, hk, hsteps, hstop⟩ := m.power_loop_to_steps MAX_STEPS _ _ hloop
  exact ⟨k, sF, hk, hsteps, hstop,
    by simp [MirrorField.get_power, hloop],
    by simp [MirrorField.get_power_warns, hloop]⟩

/-- Witness for C4 on a concrete one-cell grid. -/
theorem claim_C4_termination_witness :
    (MirrorField.mk [[MirrorType.Empty]]).WellFormed ∧
    (∀ b ∈ [Beam.mk (0, 0) Direction.East],
      b.inBounds (MirrorField.mk [[MirrorType.Empty]])) ∧
    ∃ k sF, k ≤ MAX_STEPS ∧
      (MirrorField.mk [[MirrorType.Empty]]).power_steps k
        (MirrorField.initState [Beam.mk (0, 0) Direction.East]) = some sF ∧
      (sF.current = [] ∨ k = MAX_STEPS) ∧
      (MirrorField.mk [[MirrorType.Empty]]).get_power [Beam.mk (0, 0) Direction.East]
        = some sF.powered.card ∧
      (MirrorField.mk [[MirrorType.Empty]]).get_power_warns [Beam.mk (0, 0) Direction.East]
        = some (!sF.current.isEmpty) :=
  ⟨by decide, by decide,
    claim_C4_termination (MirrorField.mk [[MirrorType.Empty]])
      [Beam.mk (0, 0) Direction.East] (by decide) (by decide)⟩

/-- The structural effect of one loop iteration on the seen set: it grows
by exactly the expanded frontier, and the new frontier avoids it. -/
theorem MirrorField.power_step_previous (m : MirrorField) (s s' : PowerState)
    (h : m.power_step s = some s') :
    s'.previous = s.previous ∪ s.current.toFinset ∧
    ∀ b ∈ s'.current, b ∉ s'.previous := by
  cases hn : m.nextsAll s.current with
  | none => simp [power_step, hn] at h
  | some nexts =>
      simp only [power_step, hn, Option.some.injEq] at h
      subst h
      refine ⟨rfl, ?_⟩
      intro b hb
      have h2 := (List.mem_filter.mp hb).2
      simpa using h2

/-- Claim C5 (amended): the seen-beams set only grows across iterations,
and after at least one iteration the frontier is disjoint from it — so a
`(position, direction)` pair that has been expanded is recorded in the
seen set and never re-added to a later frontier.  (Survivors of a single
iteration are, however, not deduplicated against each other; see the
counterexample.) -/
theorem claim_C5_seen_beams (m : MirrorField) (k : Nat) (s sF : PowerState)
    (h : m.power_steps k s = some sF) :
    s.previous ⊆ sF.previous ∧ (1 ≤ k → ∀ b ∈ sF.current, b ∉ sF.previous) := by
  induction k generalizing s with
  | zero =>
      simp only [MirrorField.power_steps, Option.some.injEq] at h
      subst h
      exact ⟨subset_rfl, fun hk => absurd hk (by omega)⟩
  | succ k ih =>
      rw [m.power_steps_succ] at h
      cases hstep : m.power_step s with
      | none => rw [hstep] at h; cases h
      | some s2 =>
          rw [hstep] at h
          obtain ⟨hprev2, hdisj2⟩ := m.power_step_previous s s2 hstep
          have hmono : s.previous ⊆ s2.previous := by
            rw [hprev2]; exact Finset.subset_union_left
          rcases Nat.eq_zero_or_pos k with hk0 | hkpos
          · subst hk0
            simp only [MirrorField.power_steps, Option.some.injEq] at h
            subst h
            exact ⟨hmono, fun _ => hdisj2⟩
          · obtain ⟨ih1, ih2⟩ := ih s2 h
            exact ⟨hmono.trans ih1, fun _ => ih2 hkpos⟩

/-- Witness for the amended C5 on a concrete one-cell grid. -/
theorem claim_C5_seen_beams_witness :
    (MirrorField.mk [[MirrorType.Empty]]).power_steps 1
        (MirrorField.initState [Beam.mk (0, 0) Direction.East])
      = some (PowerState.mk {(0, 0)} [] {Beam.mk (0, 0) Direction.East}) ∧
    ((MirrorField.initState [Beam.mk (0, 0) Direction.East]).previous
        ⊆ (PowerState.mk {(0, 0)} [] {Beam.mk (0, 0) Direction.East}).previous ∧
      (1 ≤ 1 → ∀ b ∈ (PowerState.mk {(0, 0)} [] {Beam.mk (0, 0) Direction.East}).current,
        b ∉ (PowerState.mk {(0, 0)} [] {Beam.mk (0, 0) Direction.East}).previous)) :=
  ⟨by decide,
    claim_C5_seen_beams (MirrorField.mk [[MirrorType.Empty]]) 1
      (MirrorField.initState [Beam.mk (0, 0) Direction.East])
      (PowerState.mk {(0, 0)} [] {Beam.mk (0, 0) Direction.East}) (by decide)⟩

/-- Counterexample to C5 as frozen: on a 3×3 grid a single starting beam
splits and the two branches converge, in the same iteration, onto the
same `(position, direction)` pair; the frontier after five iterations
holds two equal beams, so the survivors are not deduplicated and that
pair is expanded twice. -/
theorem claim_C5_counterexample :
    ((MirrorField.mk
        [[MirrorType.Empty, MirrorType.PositiveMirror, MirrorType.NegativeMirror],
         [MirrorType.Empty, MirrorType.VerticalSplitter, MirrorType.HorizontalSplitter],
         [MirrorType.Empty, MirrorType.NegativeMirror, MirrorType.PositiveMirror]]).power_steps 5
      (MirrorField.initState [Beam.mk (0, 1) Direction.East])).map
        (fun s => s.current)
      = some [Beam.mk (1, 1) Direction.West, Beam.mk (1, 1) Direction.West] := by
  decide

/-- Claim C6: `get_power` is a pure function of the grid and the starting
beams — two calls on equal inputs return equal results, and no state of
the grid is consulted or changed beyond its matrix. -/
theorem claim_C6_deterministic (m1 m2 : MirrorField) (beams1 beams2 : List Beam)
    (h1 : m1 = m2) (h2 : beams1 = beams2) :
    m1.get_power beams1 = m2.get_power beams2 := by
  rw [h1, h2]

/-- Witness for C6 on a concrete grid. -/
theorem claim_C6_deterministic_witness :
    (MirrorField.mk [[MirrorType.Empty]]) = (MirrorField.mk [[MirrorType.Empty]]) ∧
    (MirrorField.mk [[MirrorType.Empty]]).get_power [Beam.mk (0, 0) Direction.East]
      = (MirrorField.mk [[MirrorType.Empty]]).get_power [Beam.mk (0, 0) Direction.East] :=
  ⟨rfl, claim_C6_deterministic (MirrorField.mk [[MirrorType.Empty]])
    (MirrorField.mk [[MirrorType.Empty]])
    [Beam.mk (0, 0) Direction.East] [Beam.mk (0, 0) Direction.East] rfl rfl⟩

/-- `charToCell` and `cellToChar` invert each other on valid characters. -/
theorem cellToChar_charToCell (c : Char) (t : MirrorType)
    (h : charToCell c = some t) : cellToChar t = c := by
  unfold charToCell at h
  split at h <;> simp_all [cellToChar] <;> (subst h; rfl)

/-- `charToCell` rejects exactly the characters outside the five-symbol
alphabet. -/
theorem charToCell_eq_none_iff (c : Char) :
    charToCell c = none ↔ c ∉ ['.', '/', '\\', '|', '-'] := by
  unfold charToCell
  split <;> simp_all

/-- A row of valid characters parses, and rendering it back gives the
original characters. -/
theorem parseRow_ok_of_valid :
    ∀ cs : List Char, (∀ c ∈ cs, (charToCell c).isSome) →
      ∃ ts, parseRow cs = .ok ts ∧ ts.map cellToChar = cs := by
  intro cs
  induction cs with
  | nil => exact fun _ => ⟨[], rfl, rfl⟩
  | cons c cs ih =>
      intro h
      obtain ⟨t, ht⟩ := Option.isSome_iff_exists.mp (h c (by simp))
      obtain ⟨ts, hts, hmap⟩ := ih (fun x hx => h x (by simp [hx]))
      refine ⟨t :: ts, ?_, ?_⟩
      · simp [parseRow, ht, hts]
      · simp [hmap, cellToChar_charToCell c t ht]

/-- A row containing an invalid character fails with `InvalidCellKind`. -/
theorem parseRow_error_of_invalid :
    ∀ cs : List Char, (∃ c ∈ cs, charToCell c = none) →
      parseRow cs = .error GridError.InvalidCellKind := by
  intro cs
  induction cs with
  | nil => rintro ⟨c, hc, -⟩; cases hc
  | cons c cs ih =>
      rintro ⟨x, hx, hnone⟩
      rcases List.mem_cons.mp hx with rfl | hx
      · simp [parseRow, hnone]
      · cases hc : charToCell c with
        | none => simp [parseRow, hc]
        | some t => simp [parseRow, hc, ih ⟨x, hx, hnone⟩]

/-- All lines of valid characters parse, and the matrix renders back to
the original lines. -/
theorem parse_go_ok_of_valid :
    ∀ liness : List (List Char),
      (∀ line ∈ liness, ∀ c ∈ line, (charToCell c).isSome) →
      ∃ rows, MirrorField.parse.go liness = .ok rows ∧
        rows.map (fun r => r.map cellToChar) = liness := by
  intro liness
  induction liness with
  | nil => exact fun _ => ⟨[], rfl, rfl⟩
  | cons line rest ih =>
      intro h
      obtain ⟨ts, hts, hmap⟩ := parseRow_ok_of_valid line (h line (by simp))
      obtain ⟨rows, hrows, hmaps⟩ := ih (fun l hl => h l (by simp [hl]))
      refine ⟨ts :: rows, ?_, ?_⟩
      · simp [MirrorField.parse.go, hts, hrows]
      · simp [hmap, hmaps]

/-- Some line containing an invalid character makes `parse.go` fail with
`InvalidCellKind`. -/
theorem parse_go_error_of_invalid :
    ∀ liness : List (List Char),
      (∃ line ∈ liness, ∃ c ∈ line, charToCell c = none) →
      MirrorField.parse.go liness = .error GridError.InvalidCellKind := by
  intro liness
  induction liness with
  | nil => rintro ⟨l, hl, -⟩; cases hl
  | cons line rest ih =>
      rintro ⟨l, hl, hex⟩
      rcases List.mem_cons.mp hl with rfl | hl
      · simp [MirrorField.parse.go, parseRow_error_of_invalid l hex]
      · by_cases hline : ∀ c ∈ line, (charToCell c).isSome
        · obtain ⟨ts, hts, -⟩ := parseRow_ok_of_valid line hline
          simp [MirrorField.parse.go, hts, ih ⟨l, hl, hex⟩]
        · push_neg at hline
          obtain ⟨c, hc, hnone⟩ := hline
          replace hnone : charToCell c = none := by
            cases hcc : charToCell c
            · rfl
            · simp [hcc] at hnone
          simp [MirrorField.parse.go, parseRow_error_of_invalid line ⟨c, hc, hnone⟩]

/-- Claim C7: grid construction maps the five characters to their cell
kinds, rejects every other character, and fails with the typed
`InvalidCellKind` error exactly when some input character is invalid
(the source's `panic!` on that arm is modelled as this typed error). -/
theorem claim_C7_invalid_cell_kind :
    (charToCell '.' = some MirrorType.Empty ∧
     charToCell '/' = some MirrorType.PositiveMirror ∧
     charToCell '\\' = some MirrorType.NegativeMirror ∧
     charToCell '|' = some MirrorType.VerticalSplitter ∧
     charToCell '-' = some MirrorType.HorizontalSplitter) ∧
    (∀ c : Char, c ∉ ['.', '/', '\\', '|', '-'] → charToCell c = none) ∧
    ∀ lines : List (List Char),
      (MirrorField.parse lines = .error GridError.InvalidCellKind ↔
        ∃ line ∈ lines, ∃ c ∈ line, charToCell c = none) := by
  refine ⟨⟨rfl, rfl, rfl, rfl, rfl⟩, ?_, ?_⟩
  · exact fun c hc => (charToCell_eq_none_iff c).mpr hc
  · intro lines
    constructor
    · intro herr
      by_cases hvalid : ∀ line ∈ lines, ∀ c ∈ line, (charToCell c).isSome
      · obtain ⟨rows, hrows, -⟩ := parse_go_ok_of_valid lines hvalid
        rw [MirrorField.parse, hrows] at herr
        cases herr
      · push_neg at hvalid
        obtain ⟨l, hl, c, hc, hnone⟩ := hvalid
        replace hnone : charToCell c = none := by
          cases hcc : charToCell c
          · rfl
          · simp [hcc] at hnone
        exact ⟨l, hl, c, hc, hnone⟩
    · intro hex
      rw [MirrorField.parse, parse_go_error_of_invalid lines hex]

/-- Witness for C7: a concrete invalid character is rejected and makes
construction fail. -/
theorem claim_C7_invalid_cell_kind_witness :
    charToCell 'x' = none ∧
    (MirrorField.parse [['x']] = .error GridError.InvalidCellKind ↔
      ∃ line ∈ [['x']], ∃ c ∈ line, charToCell c = none) :=
  ⟨claim_C7_invalid_cell_kind.2.1 'x' (by decide),
   claim_C7_invalid_cell_kind.2.2 [['x']]⟩

/-- Counterexample to C8 as frozen: construction performs no shape
validation — rows of unequal length parse successfully, and zero rows
parse successfully; no `MalformedGrid` error is ever produced. -/
theorem claim_C8_counterexample :
    MirrorField.parse [['.'], ['.', '.']]
      = .ok (MirrorField.mk [[MirrorType.Empty], [MirrorType.Empty, MirrorType.Empty]]) ∧
    MirrorField.parse ([] : List (List Char)) = .ok (MirrorField.mk []) :=
  ⟨rfl, rfl⟩

/-- Claim C8 (amended): grid construction checks only the characters;
any list of lines over the five-symbol alphabet — ragged or empty
included — is accepted, and the resulting matrix copies the input's
shape unchanged. -/
theorem claim_C8_no_validation (lines : List (List Char))
    (hvalid : ∀ line ∈ lines, ∀ c ∈ line, (charToCell c).isSome) :
    ∃ g, MirrorField.parse lines = .ok g ∧
      g.matrix.map List.length = lines.map List.length := by
  obtain ⟨rows, hrows, hmaps⟩ := parse_go_ok_of_valid lines hvalid
  refine ⟨⟨rows⟩, by rw [MirrorField.parse, hrows], ?_⟩
  calc rows.map List.length
      = (rows.map (fun r => r.map cellToChar)).map List.length := by
        simp [List.map_map, Function.comp]
    _ = lines.map List.length := by rw [hmaps]

/-- Witness for the amended C8 at a concrete ragged input. -/
theorem claim_C8_no_validation_witness :
    (∀ line ∈ [['.'], ['.', '.']], ∀ c ∈ line, (charToCell c).isSome) ∧
    ∃ g, MirrorField.parse [['.'], ['.', '.']] = .ok g ∧
      g.matrix.map List.length = [['.'], ['.', '.']].map List.length :=
  ⟨by decide, claim_C8_no_validation [['.'], ['.', '.']] (by decide)⟩

/-- Joining with a longer first line distributes over `specJoinLines`. -/
theorem specJoinLines_cons_append (a b : List Char) (ls : List (List Char)) :
    specJoinLines ((a ++ '\n' :: b) :: ls) = a ++ '\n' :: specJoinLines (b :: ls) := by
  cases ls with
  | nil => simp [specJoinLines]
  | cons c ls => simp [specJoinLines]

/-- The `reduce`-style fold of `to_str` computes the newline join. -/
theorem foldl_join (ls : List (List Char)) :
    ∀ r, ls.foldl (fun a b => a ++ '\n' :: b) r = specJoinLines (r :: ls) := by
  induction ls with
  | nil => intro r; simp [specJoinLines]
  | cons b ls ih =>
      intro r
      simp only [List.foldl_cons]
      rw [ih (r ++ '\n' :: b), specJoinLines_cons_append]
      rfl

/-- Claim C10: for every non-empty list of lines over the five-symbol
alphabet, parsing and then rendering (`to_str`) returns exactly the
original lines joined by newline characters. -/
theorem claim_C10_roundtrip (lines : List (List Char)) (hne : lines ≠ [])
    (hvalid : ∀ line ∈ lines, ∀ c ∈ line, (charToCell c).isSome) :
    ∃ g, MirrorField.parse lines = .ok g ∧
      g.to_str = some (specJoinLines lines) := by
  obtain ⟨rows, hrows, hmaps⟩ := parse_go_ok_of_valid lines hvalid
  refine ⟨⟨rows⟩, by rw [MirrorField.parse, hrows], ?_⟩
  cases hls : lines with
  | nil => exact absurd hls hne
  | cons l ls =>
      subst hls
      simp only [MirrorField.to_str, hmaps]
      rw [foldl_join ls l]

/-- Witness for C10 at a concrete two-line grid. -/
theorem claim_C10_roundtrip_witness :
    ([['/', '.'], ['-', '|']] : List (List Char)) ≠ [] ∧
    (∀ line ∈ [['/', '.'], ['-', '|']], ∀ c ∈ line, (charToCell c).isSome) ∧
    ∃ g, MirrorField.parse [['/', '.'], ['-', '|']] = .ok g ∧
      g.to_str = some (specJoinLines [['/', '.'], ['-', '|']]) :=
  ⟨by decide, by decide,
    claim_C10_roundtrip [['/', '.'], ['-', '|']] (by decide) (by decide)⟩

/-- Counterexample to C9 as frozen: on a 1-column, 2-row grid the
south-edge scan enumerates `0..matrix.len()` — the row count — so it
runs two candidates instead of one per column; the second candidate
starts out of bounds, and running `get_power` on it hits the
out-of-bounds lookup (modelled as `none`). -/
theorem claim_C9_counterexample :
    (MirrorField.mk [[MirrorType.Empty], [MirrorType.Empty]]).southScanStarts
      = [Beam.mk (0, 1) Direction.North, Beam.mk (1, 1) Direction.North] ∧
    (MirrorField.mk [[MirrorType.Empty], [MirrorType.Empty]]).width = 1 ∧
    ¬ (Beam.mk (1, 1) Direction.North).inBounds
        (MirrorField.mk [[MirrorType.Empty], [MirrorType.Empty]]) ∧
    (MirrorField.mk [[MirrorType.Empty], [MirrorType.Empty]]).get_power
      [Beam.mk (1, 1) Direction.North] = none := by
  decide

/-- Claim C9 (amended): the west-, east- and north-edge scans enumerate
the correct edge extents with in-bounds starting positions (height
candidates down the west and east edges, width candidates across the
north edge); the south-edge scan, however, enumerates the row count:
it runs exactly `height` candidates, each entering North on the bottom
row, with columns ranging over `0..height` rather than `0..width`. -/
theorem claim_C9_border_scans (m : MirrorField) (hm : m.WellFormed) :
    (m.westScanStarts.length = m.height ∧
      ∀ b ∈ m.westScanStarts,
        b.direction = .East ∧ b.position.1 = 0 ∧ b.inBounds m) ∧
    (m.eastScanStarts.length = m.height ∧
      ∀ b ∈ m.eastScanStarts,
        b.direction = .West ∧ b.position.1 = m.width - 1 ∧ b.inBounds m) ∧
    (m.northScanStarts.length = m.width ∧
      ∀ b ∈ m.northScanStarts,
        b.direction = .South ∧ b.position.2 = 0 ∧ b.inBounds m) ∧
    (m.southScanStarts.length = m.height ∧
      ∀ b ∈ m.southScanStarts,
        b.direction = .North ∧ b.position.2 = m.height - 1 ∧ b.position.1 < m.height) := by
  obtain ⟨hh, hw, -⟩ := hm
  refine ⟨⟨by simp [MirrorField.westScanStarts, MirrorField.height], ?_⟩,
    ⟨by simp [MirrorField.eastScanStarts, MirrorField.height], ?_⟩,
    ⟨by simp [MirrorField.northScanStarts, MirrorField.width], ?_⟩,
    ⟨by simp [MirrorField.southScanStarts, MirrorField.height], ?_⟩⟩ <;>
    intro b hb
  · obtain ⟨y, hy, rfl⟩ := List.mem_map.mp hb
    rw [List.mem_range] at hy
    exact ⟨rfl, rfl, hw, hy⟩
  · obtain ⟨y, hy, rfl⟩ := List.mem_map.mp hb
    rw [List.mem_range] at hy
    refine ⟨rfl, rfl, ?_, hy⟩
    show (m.matrix.headD []).length - 1 < m.width
    have hwd : m.width = (m.matrix.headD []).length := rfl
    omega
  · obtain ⟨x, hx, rfl⟩ := List.mem_map.mp hb
    rw [List.mem_range] at hx
    exact ⟨rfl, rfl, hx, hh⟩
  · obtain ⟨x, hx, rfl⟩ := List.mem_map.mp hb
    rw [List.mem_range] at hx
    exact ⟨rfl, rfl, hx⟩

/-- Witness for the amended C9 on a concrete non-square grid. -/
theorem claim_C9_border_scans_witness :
    (MirrorField.mk [[MirrorType.Empty], [MirrorType.Empty]]).WellFormed ∧
    ((MirrorField.mk [[MirrorType.Empty], [MirrorType.Empty]]).southScanStarts.length
        = (MirrorField.mk [[MirrorType.Empty], [MirrorType.Empty]]).height ∧
      ∀ b ∈ (MirrorField.mk [[MirrorType.Empty], [MirrorType.Empty]]).southScanStarts,
        b.direction = .North ∧
        b.position.2 = (MirrorField.mk [[MirrorType.Empty], [MirrorType.Empty]]).height - 1 ∧
        b.position.1 < (MirrorField.mk [[MirrorType.Empty], [MirrorType.Empty]]).height) :=
  ⟨by decide,
    (claim_C9_border_scans (MirrorField.mk [[MirrorType.Empty], [MirrorType.Empty]])
      (by decide)).2.2.2⟩
